import Mathlib

/-!
Verification of the schema-introspection, migration, query, export, import and
pagination core of `sqlite_browser.py` (a single-file SQLite web browser).

The Python source is shallowly embedded: the system catalog (`sqlite_master`
and the `index_list` / `index_info` pragmas) becomes an explicit `Catalog`
record, the SQL engine executing caller-supplied text becomes a function
`String → Except String (List Row)` (an exception raised by the engine is the
`Except.error` case), and each Flask POST handler becomes a pure function from
its request inputs to the action it performs.  Python code that raises is
modelled with `Except` / result types; state-mutating code is modelled by
explicit state passing.
-/

/-! ## A computable lexicographic order on strings

Python's `sorted` on `str` compares code points lexicographically.  The order
is defined here directly on the character lists so that it evaluates inside
the kernel. -/

/-- Lexicographic (code-point) less-or-equal on character lists, matching the
comparison Python's `sorted` performs on strings. -/
def charLeList : List Char → List Char → Bool
  | [], _ => true
  | _ :: _, [] => false
  | a :: as, b :: bs =>
    if a.toNat < b.toNat then true
    else if b.toNat < a.toNat then false
    else charLeList as bs

/-- Lexicographic less-or-equal on strings (code-point order). -/
def strLe (a b : String) : Bool := charLeList a.toList b.toList

/-- Propositional form of `strLe`, used as the sorting relation. -/
def strLeP (a b : String) : Prop := strLe a b = true

instance : DecidableRel strLeP := fun a b => by unfold strLeP; infer_instance

theorem charLeList_total (x y : List Char) : charLeList x y = true ∨ charLeList y x = true := by
  induction x generalizing y with
  | nil => left; rfl
  | cons a as ih =>
    cases y with
    | nil => right; rfl
    | cons b bs =>
      rcases Nat.lt_trichotomy a.toNat b.toNat with h | h | h
      · left; simp [charLeList, h]
      · rcases ih bs with h2 | h2
        · left; simp [charLeList, h, h2]
        · right; simp [charLeList, h, h2]
      · right; simp [charLeList, h, Nat.lt_asymm h]

theorem charLeList_trans (x y z : List Char) (h1 : charLeList x y = true)
    (h2 : charLeList y z = true) : charLeList x z = true := by
  induction x generalizing y z with
  | nil => rfl
  | cons a as ih =>
    cases y with
    | nil => simp [charLeList] at h1
    | cons b bs =>
      cases z with
      | nil => simp [charLeList] at h2
      | cons c cs =>
        simp only [charLeList] at h1 h2 ⊢
        by_cases hab : a.toNat < b.toNat
        · simp only [if_pos hab] at h1
          by_cases hbc : b.toNat < c.toNat
          · have hac : a.toNat < c.toNat := Nat.lt_trans hab hbc
            simp [hac]
          · simp only [if_neg hbc] at h2
            by_cases hcb : c.toNat < b.toNat
            · simp [hcb] at h2
            · have hac : a.toNat < c.toNat := by omega
              simp [hac]
        · simp only [if_neg hab] at h1
          by_cases hba : b.toNat < a.toNat
          · simp [hba] at h1
          · simp only [if_neg hba] at h1
            by_cases hbc : b.toNat < c.toNat
            · have hac : a.toNat < c.toNat := by omega
              simp [hac]
            · simp only [if_neg hbc] at h2
              by_cases hcb : c.toNat < b.toNat
              · simp [hcb] at h2
              · simp only [if_neg hcb] at h2
                have hac1 : ¬ a.toNat < c.toNat := by omega
                have hac2 : ¬ c.toNat < a.toNat := by omega
                simp only [if_neg hac1, if_neg hac2]
                exact ih bs cs h1 h2

instance : IsTotal String strLeP := ⟨fun a b => charLeList_total a.toList b.toList⟩

instance : IsTrans String strLeP := ⟨fun a b c => charLeList_trans a.toList b.toList c.toList⟩

/-- Sorting a list of strings ascending, as Python's `sorted` does on the keys
of `index_to_sql`. -/
def sortStrings (l : List String) : List String := List.insertionSort strLeP l

/-! ## Database metadata records (the namedtuples of the source) -/

/-- Embeds the `IndexMetadata` namedtuple `(name, sql, columns, unique)`. -/
structure IndexMetadata where
  name : String
  sql : Option String
  columns : List String
  unique : Bool
deriving Repr, DecidableEq

/-- Embeds the `ColumnMetadata` namedtuple `(name, data_type, null, primary_key)`. -/
structure ColumnMetadata where
  name : String
  data_type : String
  null : Bool
  primary_key : Nat
deriving Repr, DecidableEq

/-! ## The system catalog

`sqlite_master` rows carry an object type, an object name, the parent table
name and the (nullable) defining SQL.  The two pragmas consulted by
`get_indexes` are modelled as functions of the queried name:
`index_list t` returns the `(name, unique)` pairs of `PRAGMA index_list(t)`
(the leading sequence number is dropped, as the source ignores it), and
`index_info i` returns the full `(seqno, cid, name)` rows of
`PRAGMA index_info(i)`. -/

structure MasterEntry where
  type : String
  name : String
  tbl_name : String
  sql : Option String
deriving Repr, DecidableEq

structure Catalog where
  master : List MasterEntry
  index_list : String → List (String × Bool)
  index_info : String → List (Nat × Nat × String)

/-! ## get_indexes -/

/-- The rows of the first catalog query of `get_indexes`:
`SELECT name, sql FROM sqlite_master WHERE tbl_name = ? AND type = 'index'`.
The `ORDER BY name ASC` of the source is dropped here because the only
order-sensitive consumer, the Python `dict(...)` construction, is followed by
an explicit re-sort of the keys, and `dict` over a stably sorted pair list
collapses duplicate keys to the same survivor as over the unsorted list. -/
def index_master_pairs (db : Catalog) (table : String) : List (String × Option String) :=
  (db.master.filter (fun e => e.tbl_name == table && e.type == "index")).map
    (fun e => (e.name, e.sql))

/-- The names of the catalog's index entries for `table` (one per row of the
master-catalog query). -/
def catalogIndexNames (db : Catalog) (table : String) : List String :=
  (index_master_pairs db table).map Prod.fst

/-- Lookup in a Python `dict` built from a pair list: on duplicate keys the
last binding wins, hence the search over the reversed list. -/
def dict_get (pairs : List (String × Option String)) (key : String) : Option String :=
  match pairs.reverse.find? (fun p => p.1 == key) with
  | some p => p.2
  | none => none

/-- The key set of a Python `dict` built from a pair list (key order is
irrelevant here: the source re-sorts the keys). -/
def dict_keys (pairs : List (String × Option String)) : List String :=
  (pairs.map Prod.fst).dedup

/-- The `unique_indexes` set of `get_indexes`: names carrying a true
uniqueness flag in `PRAGMA index_list(table)`. -/
def unique_index_names (db : Catalog) (table : String) : List String :=
  ((db.index_list table).filter (fun p => p.2)).map Prod.fst

/-- Embeds `get_indexes(table)`: merge the master-catalog name/SQL query
(`index_master_pairs`, the `index_to_sql` dict), the uniqueness flags of
`PRAGMA index_list` and the column lists of `PRAGMA index_info` into one
`IndexMetadata` per index, iterating the index names in sorted order. -/
def get_indexes (db : Catalog) (table : String) : List IndexMetadata :=
  (sortStrings (dict_keys (index_master_pairs db table))).map (fun name =>
    { name := name
      sql := dict_get (index_master_pairs db table) name
      columns := (db.index_info name).map (fun r => r.2.2)
      unique := (unique_index_names db table).contains name })

/-! ## get_virtual_tables and get_corollary_virtual_tables -/

/-- ASCII lower-casing of one character, the folding SQLite's default `LIKE`
applies to both operands. -/
def asciiLower (c : Char) : Char :=
  if 65 ≤ c.toNat ∧ c.toNat ≤ 90 then Char.ofNat (c.toNat + 32) else c

/-- The `LIKE` pattern `CREATE VIRTUAL TABLE%` of `get_virtual_tables`,
already ASCII-folded. -/
def createVirtualPattern : List Char := "create virtual table".toList

/-- Whether a (nullable) SQL text matches `sql LIKE 'CREATE VIRTUAL TABLE%'`:
a `NULL` SQL never matches; otherwise the match is an ASCII-case-insensitive
prefix test. -/
def likeCreateVirtualTable (sql : Option String) : Bool :=
  match sql with
  | none => false
  | some s => createVirtualPattern.isPrefixOf (s.toList.map asciiLower)

/-- Embeds `get_virtual_tables()`: the set of names of master-catalog rows
with `type = 'table'` whose SQL starts with the virtual-table declaration.
The Python `set` is modelled as a deduplicated list (only membership is ever
used). -/
def get_virtual_tables (db : Catalog) : List String :=
  ((db.master.filter (fun e => e.type == "table" && likeCreateVirtualTable e.sql)).map
    MasterEntry.name).dedup

/-- The fixed shadow-table suffixes of `get_corollary_virtual_tables`. -/
def corollary_suffixes : List String := ["content", "docsize", "segdir", "segments", "stat"]

/-- Embeds `get_corollary_virtual_tables()`: for every virtual table and every
fixed suffix, the name `<virtual_table>_<suffix>`; a set, modelled as a list
used only through membership. -/
def get_corollary_virtual_tables (db : Catalog) : List String :=
  (corollary_suffixes.map (fun suffix =>
    (get_virtual_tables db).map (fun virtual_table => virtual_table ++ "_" ++ suffix))).flatten

/-! ## Query executor and exporter -/

/-- A result row of an executed query; cell values are left opaque. -/
abbrev Row := List String

/-- The `MAX_RESULT_SIZE` module constant. -/
def MAX_RESULT_SIZE : Nat := 1000

/-- The state of `table_query` after the try/except around `dataset.query`:
either the error text of the caught exception, or the fetched rows truncated
to `MAX_RESULT_SIZE`. -/
structure QueryPageResult where
  data : List Row
  error : Option String
deriving Repr, DecidableEq

/-- Embeds the non-export branch of `table_query`: run the SQL, catching any
engine exception into the `error` field, and cap the fetched rows with
`fetchall()[:MAX_RESULT_SIZE]`. -/
def table_query_run (engine : String → Except String (List Row)) (sql : String) :
    QueryPageResult :=
  match engine sql with
  | Except.error exc => { data := [], error := some exc }
  | Except.ok rows => { data := rows.take MAX_RESULT_SIZE, error := none }

def jsonFormat : String := "json"

def csvFormat : String := "csv"

def exportJsonExt : String := "-export.json"

def exportCsvExt : String := "-export.csv"

def mimeJson : String := "text/javascript"

def mimeCsv : String := "text/csv"

/-- The HTTP attachment built by `export`. -/
structure ExportResponse where
  body : String
  filename : String
  mimetype : String
deriving Repr, DecidableEq

/-- Embeds the `export(table, sql, export_format)` helper: re-run the SQL and
serialize the rows with `dataset.freeze` (the serializer is the abstract
`freeze` argument).  The body has no try/except, so an engine exception
propagates out as `Except.error`. -/
def export_route (engine : String → Except String (List Row))
    (freeze : String → List Row → String) (table sql export_format : String) :
    Except String ExportResponse :=
  match engine sql with
  | Except.error exc => Except.error exc
  | Except.ok rows =>
    Except.ok
      { body := freeze export_format rows
        filename := table ++ (if export_format == jsonFormat then exportJsonExt else exportCsvExt)
        mimetype := if export_format == jsonFormat then mimeJson else mimeCsv }

deriving instance DecidableEq for Except

/-- What a POST to `table_query` produces: either the export attachment (or
the uncaught exception of the export path), or the rendered query page. -/
inductive QueryOutcome where
  | exported : Except String ExportResponse → QueryOutcome
  | page : QueryPageResult → QueryOutcome
deriving Repr, DecidableEq

/-- Embeds the POST branch of `table_query`: the `export_json` / `export_csv`
form flags short-circuit into `export` before the try/except; otherwise the
query runs under the try/except. -/
def table_query_post (engine : String → Except String (List Row))
    (freeze : String → List Row → String) (table sql : String)
    (export_json export_csv : Bool) : QueryOutcome :=
  if export_json then QueryOutcome.exported (export_route engine freeze table sql jsonFormat)
  else if export_csv then QueryOutcome.exported (export_route engine freeze table sql csvFormat)
  else QueryOutcome.page (table_query_run engine sql)

/-! ## Bulk importer -/

/-- The rows of the target table. -/
abbrev TableRows := List Row

/-- Embedding of a `with dataset.transaction():` block around a body that may
mutate the state and may raise: per the engine's transaction contract, the
body's state survives on normal exit and is rolled back to the entry state
when the body raises. -/
def transaction_scope {σ α : Type} (body : σ → σ × Except String α) (s : σ) :
    σ × Except String α :=
  match body s with
  | (s2, Except.ok a) => (s2, Except.ok a)
  | (_, Except.error e) => (s, Except.error e)

/-- The flash message `table_import` ends with. -/
inductive ImportFlash where
  | success : Nat → ImportFlash
  | failure : String → ImportFlash
deriving Repr, DecidableEq

def importErrorText : String := "Error importing file: "

/-- Embeds the import branch of `table_import`: `dataset.thaw` (the abstract
`thaw` argument, which may insert some rows before raising) runs inside one
`dataset.transaction()`; an exception is caught and flashed, a normal exit
flashes the returned row count. -/
def table_import_post (thaw : TableRows → TableRows × Except String Nat) (s : TableRows) :
    TableRows × ImportFlash :=
  match transaction_scope thaw s with
  | (s2, Except.ok n) => (s2, ImportFlash.success n)
  | (s2, Except.error e) => (s2, ImportFlash.failure (importErrorText ++ e))

/-! ## Pagination of table_content -/

/-- Embeds the previous-page computation of `table_content`:
`page_number - 1` when `page_number > 1`, else `None`. -/
def previous_page (page_number : Nat) : Option Nat :=
  if page_number > 1 then some (page_number - 1) else none

/-- Embeds `total_pages = math.ceil(total_rows / float(rows_per_page))` as the
exact ceiling division on naturals (the source's float division is exact for
every realistic row count; rounding beyond 2^53 is out of scope). -/
def total_pages (total_rows rows_per_page : Nat) : Nat :=
  (total_rows + rows_per_page - 1) / rows_per_page

/-- Embeds the next-page computation of `table_content`:
`page_number + 1` when `page_number < total_pages`, else `None`. -/
def next_page (page_number total_rows rows_per_page : Nat) : Option Nat :=
  if page_number < total_pages total_rows rows_per_page then some (page_number + 1) else none

/-! ## Migration form handlers: add_column, rename_column, add_index -/

/-- The keys of the `column_mapping` OrderedDict of `add_column`. -/
def column_mapping : List String :=
  ["VARCHAR", "TEXT", "INTEGER", "REAL", "BOOL", "BLOB", "DATETIME", "DATE", "TIME", "DECIMAL"]

/-- The action the POST branch of `add_column` takes: either the migration is
run (with the given column name and type tag, the new column nullable), or
the validation flash fires and no migration is attempted. -/
inductive AddColumnResult where
  | migrated : String → String → AddColumnResult
  | validationError : AddColumnResult
deriving Repr, DecidableEq

/-- Embeds the POST branch of `add_column`: `request_data.get('type')` may be
absent (`none`), `name` defaults to the empty string; the migration runs only
under `if name and col_type in column_mapping`. -/
def add_column_post (name : String) (col_type : Option String) : AddColumnResult :=
  match col_type with
  | some t =>
    if name ≠ "" ∧ t ∈ column_mapping then AddColumnResult.migrated name t
    else AddColumnResult.validationError
  | none => AddColumnResult.validationError

/-- The action the POST branch of `rename_column` takes. -/
inductive RenameResult where
  | migrated : String → String → RenameResult
  | validationError : RenameResult
deriving Repr, DecidableEq

/-- Embeds the POST branch of `rename_column`: the migration runs under
`if (rename in column_names) and (rename_to not in column_names)`, where
`column_names` is the name list of `get_columns(table)`. -/
def rename_column_post (column_names : List String) (rename rename_to : String) :
    RenameResult :=
  if rename ∈ column_names ∧ rename_to ∉ column_names then
    RenameResult.migrated rename rename_to
  else RenameResult.validationError

/-- The action the POST branch of `add_index` takes. -/
inductive AddIndexResult where
  | migrated : List String → Bool → AddIndexResult
  | validationError : AddIndexResult
deriving Repr, DecidableEq

/-- Embeds the POST branch of `add_index`: `columns = get_columns(table)` is
in scope but the only test before migrating is `if indexed_columns:` —
the selected column names are never compared against `columns`. -/
def add_index_post (columns : List ColumnMetadata) (indexed_columns : List String)
    (unique : Bool) : AddIndexResult :=
  if indexed_columns ≠ [] then AddIndexResult.migrated indexed_columns unique
  else AddIndexResult.validationError

/-! ## The drop-column rebuild migration

`drop_column` delegates to `migrate(migrator.drop_column(table, name))` of the
third-party playhouse migration library, whose code is not part of this
repository. -/

/-- A physical table: its column list and its rows (one cell per column, in
column order). -/
structure DbTable where
  cols : List String
  rows : List (List String)
deriving Repr, DecidableEq

/-- A database schema state: named tables. -/
abbrev DbState := List (String × DbTable)

def dbLookup (db : DbState) (t : String) : Option DbTable :=
  (db.find? (fun p => p.1 == t)).map Prod.snd

def dbDrop (db : DbState) (t : String) : DbState :=
  db.filter (fun p => p.1 != t)

def dbSet (db : DbState) (t : String) (tbl : DbTable) : DbState :=
  dbDrop db t ++ [(t, tbl)]

/-- Project one row onto the columns other than the dropped one. -/
def dropColFromRow (cols : List String) (c : String) (row : List String) : List String :=
  ((cols.zip row).filter (fun p => p.1 != c)).map Prod.snd

def shadowName (t : String) : String := t ++ "__tmp__"

def engineErr : String := "engine rejected statement"

/-- Rebuild step 1: create the shadow table without the dropped column. -/
def stepCreateShadow (t c : String) (db : DbState) : DbState × Except String Unit :=
  match dbLookup db t with
  | some tbl =>
    (dbSet db (shadowName t) { cols := tbl.cols.filter (fun x => x != c), rows := [] },
      Except.ok ())
  | none => (db, Except.error engineErr)

/-- Rebuild step 2: copy the data into the shadow table, dropping the column's
cells. -/
def stepCopyRows (t c : String) (db : DbState) : DbState × Except String Unit :=
  match dbLookup db t, dbLookup db (shadowName t) with
  | some tbl, some sh =>
    (dbSet db (shadowName t) { cols := sh.cols, rows := tbl.rows.map (dropColFromRow tbl.cols c) },
      Except.ok ())
  | _, _ => (db, Except.error engineErr)

/-- Rebuild step 3: drop the original table. -/
def stepDropOriginal (t : String) (db : DbState) : DbState × Except String Unit :=
  (dbDrop db t, Except.ok ())

/-- Rebuild step 4: rename the shadow table to the original name. -/
def stepRenameShadow (t : String) (db : DbState) : DbState × Except String Unit :=
  match dbLookup db (shadowName t) with
  | some sh => (dbSet (dbDrop db (shadowName t)) t sh, Except.ok ())
  | none => (db, Except.error engineErr)

/-- Failure injection: when the engine rejects this statement the state is
left as it was before the statement. -/
def failable {σ : Type} (failHere : Bool) (step : σ → σ × Except String Unit) (s : σ) :
    σ × Except String Unit :=
  if failHere then (s, Except.error engineErr) else step s

/-- Run statements in order, stopping at the first failure and keeping the
state reached so far (no rollback here: that is the transaction's job). -/
def runSteps {σ : Type} : List (σ → σ × Except String Unit) → σ → σ × Except String Unit
  | [], s => (s, Except.ok ())
  | f :: fs, s =>
    match f s with
    | (s2, Except.ok _) => runSteps fs s2
    | (s2, Except.error e) => (s2, Except.error e)

/-- Modelled from the spec: the playhouse drop-column migration invoked by
`migrate(migrator.drop_column(table, name))` is not under this repository's
source; the spec describes it as the rebuild sequence — create a shadow table
without the column, copy the data, drop the original, rename the shadow —
performed inside one transaction.  The four booleans inject an engine
rejection at the corresponding step. -/
def drop_column_migration (f1 f2 f3 f4 : Bool) (t c : String) (db : DbState) :
    DbState × Except String Unit :=
  transaction_scope
    (runSteps
      [failable f1 (stepCreateShadow t c),
       failable f2 (stepCopyRows t c),
       failable f3 (stepDropOriginal t),
       failable f4 (stepRenameShadow t)])
    db

/-! ## Concrete inputs for the witnesses -/

def usersTable : String := "users"

def exCatalog : Catalog where
  master :=
    [{ type := "index", name := "idx_users_email", tbl_name := "users",
       sql := some ("CREATE INDEX idx_users_email ON users (email)") },
     { type := "index", name := "sqlite_autoindex_users_1", tbl_name := "users", sql := none },
     { type := "table", name := "users", tbl_name := "users",
       sql := some ("CREATE TABLE users (id INTEGER NOT NULL PRIMARY KEY, email TEXT)") }]
  index_list := fun t =>
    if t == "users" then [("sqlite_autoindex_users_1", true), ("idx_users_email", false)]
    else []
  index_info := fun i =>
    if i == "idx_users_email" then [(0, 1, "email")]
    else if i == "sqlite_autoindex_users_1" then [(0, 0, "id")]
    else []

def sqlErrMsg : String := "near BAD: syntax error"

def failEngine : String → Except String (List Row) := fun _ => Except.error sqlErrMsg

def freezeEmpty : String → List Row → String := fun _ _ => ""

def badSql : String := "BAD"

def malformedMsg : String := "malformed row"

def demoRow : Row := ["1", "alice"]

def thawPartialFail : TableRows → TableRows × Except String Nat :=
  fun s => (demoRow :: s, Except.error malformedMsg)

def thawAllOk : TableRows → TableRows × Except String Nat :=
  fun s => (demoRow :: s, Except.ok 1)

def colVarchar : String := "VARCHAR"

def colNameDemo : String := "nickname"

def emptyName : String := ""

def demoCols : List String := ["id", "name"]

def colA : String := "id"

def demoDbTable : DbTable where
  cols := ["id", "name", "age"]
  rows := [["1", "alice", "30"], ["2", "bob", "25"]]

def demoDb : DbState := [("users", demoDbTable)]

def colAge : String := "age"

/-! ## Shared helper lemmas -/

theorem transaction_scope_error {σ α : Type} (body : σ → σ × Except String α) (s : σ)
    (e : String) (h : (transaction_scope body s).2 = Except.error e) :
    (transaction_scope body s).1 = s := by
  unfold transaction_scope at h ⊢
  rcases hb : body s with ⟨s2, r⟩
  cases r with
  | ok a => simp_all
  | error e2 => rfl

/-! ## Claim theorems -/

/-- C4: for every SQL query string, the query executor returns at most
`MAX_RESULT_SIZE` rows (hard cap, default 1000), even when the query matches
more rows than that. -/
theorem table_query_result_cap :
    MAX_RESULT_SIZE = 1000
    ∧ ∀ (engine : String → Except String (List Row)) (sql : String),
        (table_query_run engine sql).data.length ≤ MAX_RESULT_SIZE := by
  refine ⟨rfl, fun engine sql => ?_⟩
  unfold table_query_run
  cases hE : engine sql with
  | error exc => simp
  | ok rows => simpa using List.length_take_le MAX_RESULT_SIZE rows

/-- C2 counterexample: the claim that no SQL execution error is ever raised
past the executor/exporter boundary is false — on the export path the
engine's error propagates uncaught out of `table_query`. -/
theorem table_query_export_error_escapes :
    ¬ ∀ (engine : String → Except String (List Row))
        (freeze : String → List Row → String) (table sql : String)
        (export_json export_csv : Bool) (e : String),
        table_query_post engine freeze table sql export_json export_csv
          ≠ QueryOutcome.exported (Except.error e) := by
  intro h
  exact h failEngine freezeEmpty usersTable badSql true false sqlErrMsg rfl

/-- C2 (amended): an SQL error in the direct query path is caught and returned
in the page's error field, but in both export paths the SQL error is not
caught and propagates past the exporter boundary. -/
theorem table_query_error_handling_amended (engine : String → Except String (List Row))
    (freeze : String → List Row → String) (table sql e : String)
    (h : engine sql = Except.error e) :
    table_query_post engine freeze table sql false false
        = QueryOutcome.page { data := [], error := some e }
    ∧ table_query_post engine freeze table sql true false
        = QueryOutcome.exported (Except.error e)
    ∧ table_query_post engine freeze table sql false true
        = QueryOutcome.exported (Except.error e) := by
  refine ⟨?_, ?_, ?_⟩ <;> simp [table_query_post, table_query_run, export_route, h]

/-- Witness for C2 (amended) at a concrete failing engine. -/
theorem table_query_error_handling_amended_witness :
    failEngine badSql = Except.error sqlErrMsg
    ∧ (table_query_post failEngine freezeEmpty usersTable badSql false false
          = QueryOutcome.page { data := [], error := some sqlErrMsg }
      ∧ table_query_post failEngine freezeEmpty usersTable badSql true false
          = QueryOutcome.exported (Except.error sqlErrMsg)
      ∧ table_query_post failEngine freezeEmpty usersTable badSql false true
          = QueryOutcome.exported (Except.error sqlErrMsg)) :=
  ⟨rfl, table_query_error_handling_amended failEngine freezeEmpty usersTable badSql sqlErrMsg rfl⟩

/-- C3: all row insertions of one import run happen inside a single
transaction; on any failure the transaction rolls back entirely and the table
data is unchanged, and on success the operation reports the count of rows the
run inserted. -/
theorem table_import_transaction_atomic (thaw : TableRows → TableRows × Except String Nat)
    (s : TableRows) :
    (∀ s2 e, thaw s = (s2, Except.error e) →
        table_import_post thaw s = (s, ImportFlash.failure (importErrorText ++ e)))
    ∧ ∀ s2 n, thaw s = (s2, Except.ok n) →
        table_import_post thaw s = (s2, ImportFlash.success n) := by
  constructor
  · intro s2 e h
    simp [table_import_post, transaction_scope, h]
  · intro s2 n h
    simp [table_import_post, transaction_scope, h]

/-- Witness for C3: a run that inserts a row and then fails leaves the table
empty as before; a successful run keeps the inserted row and reports 1. -/
theorem table_import_transaction_atomic_witness :
    thawPartialFail [] = (demoRow :: [], Except.error malformedMsg)
    ∧ table_import_post thawPartialFail []
        = ([], ImportFlash.failure (importErrorText ++ malformedMsg))
    ∧ thawAllOk [] = (demoRow :: [], Except.ok 1)
    ∧ table_import_post thawAllOk [] = (demoRow :: [], ImportFlash.success 1) :=
  ⟨rfl,
   (table_import_transaction_atomic thawPartialFail []).1 (demoRow :: []) malformedMsg rfl,
   rfl,
   (table_import_transaction_atomic thawAllOk []).2 (demoRow :: []) 1 rfl⟩

/-- C6: the add-column migration is performed only when the column name is
nonempty and the type tag is one of the ten enumerated tags; otherwise a
validation error is reported and no migration is attempted. -/
theorem add_column_validation_spec :
    column_mapping
        = ["VARCHAR", "TEXT", "INTEGER", "REAL", "BOOL", "BLOB", "DATETIME", "DATE",
           "TIME", "DECIMAL"]
    ∧ ∀ (name : String) (col_type : Option String),
        (add_column_post name col_type = AddColumnResult.validationError
          ↔ ¬ (name ≠ "" ∧ ∃ t, col_type = some t ∧ t ∈ column_mapping))
        ∧ ∀ t, col_type = some t → name ≠ "" → t ∈ column_mapping →
            add_column_post name col_type = AddColumnResult.migrated name t := by
  refine ⟨rfl, fun name col_type => ⟨?_, ?_⟩⟩
  · cases col_type with
    | none => simp [add_column_post]
    | some t =>
      by_cases h : name ≠ "" ∧ t ∈ column_mapping
      · simp only [add_column_post, if_pos h]
        constructor
        · intro hbad
          exact absurd hbad (by simp)
        · intro hno
          exact absurd ⟨h.1, t, rfl, h.2⟩ hno
      · simp only [add_column_post, if_neg h]
        constructor
        · intro _ hyes
          rcases hyes with ⟨hname, t2, ht2, hmem⟩
          cases ht2
          exact h ⟨hname, hmem⟩
        · intro _
          trivial
  · intro t ht hname hmem
    subst ht
    simp [add_column_post, hname, hmem]

/-- Witness for C6: adding a nonempty-named VARCHAR column migrates. -/
theorem add_column_validation_spec_witness :
    add_column_post colNameDemo (some colVarchar)
        = AddColumnResult.migrated colNameDemo colVarchar :=
  (add_column_validation_spec.2 colNameDemo (some colVarchar)).2 colVarchar rfl
    (by decide) (by decide)

/-- C9: a rename-column request whose old name exists and whose new name is
the empty string passes validation (the empty string is not an existing
column name) and the rename migration is invoked with the empty string as the
target; no validation error is reported. -/
theorem rename_column_empty_target_passes (column_names : List String) (a : String)
    (ha : a ∈ column_names) (hne : emptyName ∉ column_names) :
    rename_column_post column_names a emptyName = RenameResult.migrated a emptyName := by
  simp [rename_column_post, ha, hne]

/-- Witness for C9 on a concrete column list. -/
theorem rename_column_empty_target_passes_witness :
    colA ∈ demoCols ∧ emptyName ∉ demoCols
    ∧ rename_column_post demoCols colA emptyName = RenameResult.migrated colA emptyName :=
  ⟨by decide, by decide,
   rename_column_empty_target_passes demoCols colA (by decide) (by decide)⟩

/-- C10: the add-index operation's result does not depend on the table's
columns at all, and for every requested column-name list the migration is
attempted exactly when the list is nonempty — the requested names are never
checked against the table's columns. -/
theorem add_index_no_column_check :
    ∀ (columns columns2 : List ColumnMetadata) (indexed_columns : List String)
      (unique : Bool),
      add_index_post columns indexed_columns unique
          = add_index_post columns2 indexed_columns unique
      ∧ (add_index_post columns indexed_columns unique
            = AddIndexResult.migrated indexed_columns unique
          ↔ indexed_columns ≠ []) := by
  intro c1 c2 ic u
  refine ⟨rfl, ?_⟩
  by_cases h : ic = []
  · subst h
    simp [add_index_post]
  · simp [add_index_post, h]

/-- C1: the drop-column rebuild executes inside one transaction, so a failure
at any step leaves the column list and the row count of the table identical
to their pre-attempt state. -/
theorem drop_column_transaction_atomic (f1 f2 f3 f4 : Bool) (t c : String) (db : DbState)
    (e : String) (h : (drop_column_migration f1 f2 f3 f4 t c db).2 = Except.error e) :
    (dbLookup (drop_column_migration f1 f2 f3 f4 t c db).1 t).map DbTable.cols
        = (dbLookup db t).map DbTable.cols
    ∧ (dbLookup (drop_column_migration f1 f2 f3 f4 t c db).1 t).map
          (fun tb => tb.rows.length)
        = (dbLookup db t).map (fun tb => tb.rows.length) := by
  have hst : (drop_column_migration f1 f2 f3 f4 t c db).1 = db := by
    unfold drop_column_migration at h ⊢
    exact transaction_scope_error _ db e h
  rw [hst]
  exact ⟨rfl, rfl⟩

/-- Witness for C1: the engine rejects the data-copy statement mid-rebuild,
and the original table's columns and row count are unchanged. -/
theorem drop_column_transaction_atomic_witness :
    (drop_column_migration false true false false usersTable colAge demoDb).2
        = Except.error engineErr
    ∧ ((dbLookup (drop_column_migration false true false false usersTable colAge demoDb).1
            usersTable).map DbTable.cols
        = (dbLookup demoDb usersTable).map DbTable.cols
      ∧ (dbLookup (drop_column_migration false true false false usersTable colAge demoDb).1
            usersTable).map (fun tb => tb.rows.length)
        = (dbLookup demoDb usersTable).map (fun tb => tb.rows.length)) :=
  ⟨by decide,
   drop_column_transaction_atomic false true false false usersTable colAge demoDb engineErr
     (by decide)⟩

/-- C7: `get_corollary_virtual_tables` is computed from `get_virtual_tables`:
its members are exactly the virtual-table names crossed with the five fixed
shadow-table suffixes. -/
theorem get_corollary_virtual_tables_cross (db : Catalog) :
    corollary_suffixes = ["content", "docsize", "segdir", "segments", "stat"]
    ∧ ∀ x : String, x ∈ get_corollary_virtual_tables db
        ↔ ∃ vt ∈ get_virtual_tables db, ∃ sfx ∈ corollary_suffixes, x = vt ++ "_" ++ sfx := by
  refine ⟨rfl, fun x => ?_⟩
  unfold get_corollary_virtual_tables
  rw [List.mem_flatten]
  constructor
  · rintro ⟨l, hl, hx⟩
    obtain ⟨sfx, hsfx, rfl⟩ := List.mem_map.mp hl
    obtain ⟨vt, hvt, rfl⟩ := List.mem_map.mp hx
    exact ⟨vt, hvt, sfx, hsfx, rfl⟩
  · rintro ⟨vt, hvt, sfx, hsfx, rfl⟩
    exact ⟨(get_virtual_tables db).map (fun v => v ++ "_" ++ sfx),
      List.mem_map.mpr ⟨sfx, hsfx, rfl⟩, List.mem_map.mpr ⟨vt, hvt, rfl⟩⟩

/-- The exact ceiling division `(n + s - 1) / s` used to embed the source's
`math.ceil(total_rows / float(rows_per_page))` equals the rational ceiling of
`n / s`. -/
theorem total_pages_eq_ceil (n s : Nat) (hs : 0 < s) :
    total_pages n s = ⌈(n : ℚ) / (s : ℚ)⌉₊ := by
  unfold total_pages
  rcases Nat.eq_zero_or_pos n with hn | hn
  · subst hn
    have h0 : (0 + s - 1) / s = 0 := Nat.div_eq_of_lt (by omega)
    rw [h0]
    simp
  · obtain ⟨k, hk⟩ : ∃ k, (n + s - 1) / s = k := ⟨_, rfl⟩
    have h1 : k * s ≤ n + s - 1 := by
      rw [← hk]
      exact Nat.div_mul_le_self _ _
    have h2 : n + s - 1 < k * s + s := by
      have h2a : n + s - 1 < (k + 1) * s := by
        rw [← hk]
        exact (Nat.div_lt_iff_lt_mul hs).mp (Nat.lt_succ_self _)
      calc n + s - 1 < (k + 1) * s := h2a
        _ = k * s + s := by ring
    have hk1 : 1 ≤ k := by
      rw [← hk]
      exact (Nat.le_div_iff_mul_le hs).mpr (by omega)
    have hns : n ≤ k * s := by
      clear hk h1
      set K := k * s
      omega
    have hlow : (k - 1) * s < n := by
      rw [Nat.sub_mul, one_mul]
      clear hk h2
      set K := k * s
      omega
    rw [hk]
    symm
    rw [Nat.ceil_eq_iff (by omega : k ≠ 0)]
    have hsq : (0 : ℚ) < (s : ℚ) := by exact_mod_cast hs
    refine ⟨?_, ?_⟩
    · rw [lt_div_iff₀ hsq]
      exact_mod_cast hlow
    · rw [div_le_iff₀ hsq]
      exact_mod_cast hns

/-- C8: for page number p ≥ 1, row count n and page size s > 0, the paginated
listing reports a previous page iff p > 1 and a next page iff p < ⌈n / s⌉. -/
theorem table_content_pagination_flags (p n s : Nat) (hp : 1 ≤ p) (hs : 0 < s) :
    ((previous_page p).isSome ↔ 1 < p)
    ∧ ((next_page p n s).isSome ↔ p < ⌈(n : ℚ) / (s : ℚ)⌉₊) := by
  constructor
  · unfold previous_page
    split <;> simp_all
  · unfold next_page
    rw [← total_pages_eq_ceil n s hs]
    split <;> simp_all

/-- Witness for C8 at page 2 of 5 rows with 2 rows per page. -/
theorem table_content_pagination_flags_witness :
    1 ≤ 2 ∧ 0 < 2
    ∧ (((previous_page 2).isSome ↔ 1 < 2)
      ∧ ((next_page 2 5 2).isSome ↔ 2 < ⌈((5 : Nat) : ℚ) / ((2 : Nat) : ℚ)⌉₊)) :=
  ⟨by decide, by decide, table_content_pagination_flags 2 5 2 (by decide) (by decide)⟩

/-- C5: for every table, `get_indexes` returns exactly one `IndexMetadata`
record per catalog index entry of the table, sorted lexicographically
ascending by name (entries whose SQL is NULL included), where each record
takes its SQL from the master catalog, its column list from
`PRAGMA index_info` and its uniqueness flag from `PRAGMA index_list`. -/
theorem get_indexes_merges_catalog_sorted (db : Catalog) (table : String)
    (hnodup : (catalogIndexNames db table).Nodup) :
    (get_indexes db table).map IndexMetadata.name = sortStrings (catalogIndexNames db table)
    ∧ List.Sorted strLeP ((get_indexes db table).map IndexMetadata.name)
    ∧ (∀ e ∈ db.master, e.tbl_name = table → e.type = "index" →
        e.name ∈ (get_indexes db table).map IndexMetadata.name)
    ∧ ∀ m ∈ get_indexes db table,
        (∃ e ∈ db.master, e.tbl_name = table ∧ e.type = "index"
            ∧ e.name = m.name ∧ e.sql = m.sql)
        ∧ m.columns = (db.index_info m.name).map (fun r => r.2.2)
        ∧ (m.unique = true ↔ ∃ pr ∈ db.index_list table, pr.1 = m.name ∧ pr.2 = true) := by
  have hkeys : dict_keys (index_master_pairs db table) = catalogIndexNames db table := by
    unfold dict_keys catalogIndexNames
    exact List.dedup_eq_self.mpr hnodup
  have hmapname : (get_indexes db table).map IndexMetadata.name
      = sortStrings (catalogIndexNames db table) := by
    unfold get_indexes
    rw [List.map_map, hkeys]
    simp [Function.comp_def]
  refine ⟨hmapname, ?_, ?_, ?_⟩
  · rw [hmapname]
    exact List.sorted_insertionSort strLeP _
  · intro e he htbl hty
    have hmem : e.name ∈ catalogIndexNames db table := by
      unfold catalogIndexNames index_master_pairs
      refine List.mem_map.mpr ⟨(e.name, e.sql),
        List.mem_map.mpr ⟨e, List.mem_filter.mpr ⟨he, ?_⟩, rfl⟩, rfl⟩
      simp [htbl, hty]
    rw [hmapname]
    unfold sortStrings
    exact (List.perm_insertionSort strLeP _).mem_iff.mpr hmem
  · intro m hm
    unfold get_indexes at hm
    obtain ⟨nm, hnm, rfl⟩ := List.mem_map.mp hm
    have hnmKeys : nm ∈ dict_keys (index_master_pairs db table) := by
      unfold sortStrings at hnm
      exact (List.perm_insertionSort strLeP _).mem_iff.mp hnm
    have hnmNames : nm ∈ (index_master_pairs db table).map Prod.fst := by
      unfold dict_keys at hnmKeys
      exact List.mem_dedup.mp hnmKeys
    obtain ⟨p0, hp0, hp0n⟩ := List.mem_map.mp hnmNames
    have hfind : ((index_master_pairs db table).reverse.find? (fun p => p.1 == nm)).isSome := by
      refine List.find?_isSome.mpr ⟨p0, List.mem_reverse.mpr hp0, ?_⟩
      simp [hp0n]
    obtain ⟨q, hq⟩ := Option.isSome_iff_exists.mp hfind
    have hqmem : q ∈ (index_master_pairs db table).reverse := List.mem_of_find?_eq_some hq
    have hqpred : q.1 = nm := by
      have := List.find?_some hq
      simpa using this
    have hdget : dict_get (index_master_pairs db table) nm = q.2 := by
      unfold dict_get
      rw [hq]
    obtain ⟨e2, he2, he2q⟩ := List.mem_map.mp (List.mem_reverse.mp hqmem)
    have he2m := List.mem_filter.mp he2
    have he2tbl : e2.tbl_name = table ∧ e2.type = "index" := by
      have hpred := he2m.2
      simp at hpred
      exact hpred
    have hq1 : e2.name = q.1 := by rw [← he2q]
    have hq2 : e2.sql = q.2 := by rw [← he2q]
    refine ⟨⟨e2, he2m.1, he2tbl.1, he2tbl.2, hq1.trans hqpred, hq2.trans hdget.symm⟩, rfl, ?_⟩
    constructor
    · intro hc
      have hmem : nm ∈ ((db.index_list table).filter (fun p => p.2)).map Prod.fst := by
        simpa [unique_index_names] using hc
      obtain ⟨pr, hpr, hprn⟩ := List.mem_map.mp hmem
      have hf := List.mem_filter.mp hpr
      exact ⟨pr, hf.1, hprn, hf.2⟩
    · rintro ⟨pr, hpr, hpr1, hpr2⟩
      have hmem : nm ∈ ((db.index_list table).filter (fun p => p.2)).map Prod.fst :=
        List.mem_map.mpr ⟨pr, List.mem_filter.mpr ⟨hpr, hpr2⟩, hpr1⟩
      simpa [unique_index_names] using hmem

/-- Witness for C5 on a concrete catalog holding one explicit index and one
auto-index with NULL SQL. -/
theorem get_indexes_merges_catalog_sorted_witness :
    (catalogIndexNames exCatalog usersTable).Nodup
    ∧ ((get_indexes exCatalog usersTable).map IndexMetadata.name
          = sortStrings (catalogIndexNames exCatalog usersTable)
      ∧ List.Sorted strLeP ((get_indexes exCatalog usersTable).map IndexMetadata.name)
      ∧ (∀ e ∈ exCatalog.master, e.tbl_name = usersTable → e.type = "index" →
          e.name ∈ (get_indexes exCatalog usersTable).map IndexMetadata.name)
      ∧ ∀ m ∈ get_indexes exCatalog usersTable,
          (∃ e ∈ exCatalog.master, e.tbl_name = usersTable ∧ e.type = "index"
              ∧ e.name = m.name ∧ e.sql = m.sql)
          ∧ m.columns = (exCatalog.index_info m.name).map (fun r => r.2.2)
          ∧ (m.unique = true
              ↔ ∃ pr ∈ exCatalog.index_list usersTable, pr.1 = m.name ∧ pr.2 = true)) :=
  ⟨by decide, get_indexes_merges_catalog_sorted exCatalog usersTable (by decide)⟩
